import Mathlib

/-!
Verification development for the entrolytics/nextjs-sdk repository.

The SDK is shallowly embedded: every exported helper becomes a total Lean
function from its configuration, inputs and the outcome of its single
`fetch` call to the HTTP request it issues and the value it returns.
JavaScript objects are modelled as association lists of JSON values
(`JSON.stringify` drops `undefined`-valued keys, so optional fields that are
absent simply do not appear in the list), JavaScript truthiness is modelled
explicitly, and machine integers do not occur.  Platform builtins that the
SDK calls (`fetch`, `new URL`, `Headers.get`) are modelled as parameters or
as small total functions, noted where they appear.
-/

namespace Entro

/-- JSON values, the shape of every request/response body in the SDK.
Numbers are modelled as integers; no claim inspects fractional values. -/
inductive Json where
  | null
  | bool (b : Bool)
  | num (n : Int)
  | str (s : String)
  | arr (elems : List Json)
  | obj (fields : List (String × Json))
deriving Inhabited

/-- Field lookup on a JSON object (first binding wins, as in a JS object). -/
def Json.get : Json → String → Option Json
  | .obj fields, k => fields.lookup k
  | _, _ => none

/-- Does a JSON object carry the given field? -/
def Json.hasField (j : Json) (k : String) : Bool :=
  (j.get k).isSome

/-- JavaScript truthiness of a JSON value. -/
def Json.truthy : Json → Bool
  | .null => false
  | .bool b => b
  | .num n => n != 0
  | .str s => s != ""
  | .arr _ => true
  | .obj _ => true

/-- JS object property assignment `o[k] = v`: an existing key keeps its
position, a new key is appended. -/
def setField : List (String × Json) → String → Json → List (String × Json)
  | [], k, v => [(k, v)]
  | (k', v') :: rest, k, v =>
    if k' = k then (k, v) :: rest else (k', v') :: setField rest k v

/-- JS `s || d` for an optional string (empty string is falsy). -/
def jsOrStr (a : Option String) (d : String) : String :=
  match a with
  | some s => if s = "" then d else s
  | none => d

/-- JS `a || b` where both sides are optional strings. -/
def jsOr (a b : Option String) : Option String :=
  match a with
  | some s => if s = "" then b else some s
  | none => b

/-- JS truthiness of an optional string. -/
def optTruthy : Option String → Bool
  | some s => s != ""
  | none => false

/-- Model of JS `String.prototype.endsWith`, character-based. -/
def strEndsWith (s suf : String) : Bool :=
  suf.data.isSuffixOf s.data

/-- Model of JS `String.prototype.startsWith`, character-based. -/
def strStartsWith (s pre : String) : Bool :=
  pre.data.isPrefixOf s.data

/-- Model of `host.replace(/\/$/, '')`: drop one trailing slash. -/
def stripTrailingSlash (s : String) : String :=
  if strEndsWith s "/" then ⟨s.data.dropLast⟩ else s

/-- Model of `Response.ok`: status in the range 200..299. -/
def httpOk (status : Nat) : Bool :=
  200 ≤ status && status < 300

/-- Model of `s.split(',')[0]`: the prefix before the first comma. -/
def takeToComma (s : String) : String :=
  (s.toList.takeWhile (fun c => c ≠ ',')).asString

/-- Optional string field of a JS object literal (absent key when the value
is `undefined`; `JSON.stringify` would drop it anyway). -/
def optStrField (k : String) (v : Option String) : List (String × Json) :=
  match v with
  | some s => [(k, .str s)]
  | none => []

/-- Optional integer field of a JS object literal. -/
def optNumField (k : String) (v : Option Int) : List (String × Json) :=
  match v with
  | some n => [(k, .num n)]
  | none => []

/-- Optional boolean field of a JS object literal. -/
def optBoolField (k : String) (v : Option Bool) : List (String × Json) :=
  match v with
  | some b => [(k, .bool b)]
  | none => []

/-- Optional raw-JSON field of a JS object literal. -/
def optJsonField (k : String) (v : Option Json) : List (String × Json) :=
  match v with
  | some j => [(k, j)]
  | none => []

/-- Conditional spread `...(v && { k: v })` for a string value. -/
def condStrField (k : String) (v : Option String) : List (String × Json) :=
  match v with
  | some s => if s = "" then [] else [(k, .str s)]
  | none => []

/-- Conditional spread `...(v && { k: v })` for a JSON value. -/
def condJsonField (k : String) (v : Option Json) : List (String × Json) :=
  match v with
  | some j => if j.truthy then [(k, j)] else []
  | none => []

/-- One HTTP request as issued by the SDK via `fetch`. -/
structure HttpRequest where
  url : String
  method : String
  headers : List (String × String)
  body : Json

/-- The `{ ok: boolean, error?: string }` record every server helper
resolves with. -/
structure TrackResult where
  ok : Bool
  error : Option String
deriving DecidableEq

/-- Outcome of the single `fetch` a server helper performs: the promise
resolved with a response (status plus parsed body), or it rejected.  A
rejection carries `some m` when the thrown value is an `Error` with message
`m`, and `none` when a non-`Error` value was thrown. -/
inductive FetchOutcome where
  | response (status : Nat) (body : Json)
  | thrown (message : Option String)

/-! ### src/server/deployment.ts -/

/-- Environment-variable lookup with JS truthiness. -/
def envTruthy (env : List (String × String)) (k : String) : Bool :=
  optTruthy (env.lookup k)

/-- Deployment metadata detected from environment variables
(`DeploymentInfo` in `deployment.ts`). -/
structure DeploymentInfo where
  deployId : Option String
  gitSha : Option String
  gitBranch : Option String
  deployUrl : Option String
  platform : Option String
deriving DecidableEq

/-- Model of `detectDeployment` from `deployment.ts`.  `procEnv` is `none` when
`typeof process === 'undefined'` or `process.env` is falsy. -/
def detectDeployment (procEnv : Option (List (String × String))) : DeploymentInfo :=
  match procEnv with
  | none => ⟨none, none, none, none, some "unknown"⟩
  | some env =>
    if envTruthy env "VERCEL" then
      ⟨env.lookup "VERCEL_DEPLOYMENT_ID", env.lookup "VERCEL_GIT_COMMIT_SHA",
       env.lookup "VERCEL_GIT_COMMIT_REF",
       (if envTruthy env "VERCEL_URL" then
          some ("https://" ++ ((env.lookup "VERCEL_URL").getD "")) else none),
       some "vercel"⟩
    else if envTruthy env "NETLIFY" then
      ⟨env.lookup "DEPLOY_ID", env.lookup "COMMIT_REF", env.lookup "BRANCH",
       env.lookup "DEPLOY_URL", some "netlify"⟩
    else if envTruthy env "CF_PAGES" then
      ⟨env.lookup "CF_PAGES_COMMIT_SHA", env.lookup "CF_PAGES_COMMIT_SHA",
       env.lookup "CF_PAGES_BRANCH", env.lookup "CF_PAGES_URL", some "cloudflare"⟩
    else if envTruthy env "RAILWAY_ENVIRONMENT" then
      ⟨env.lookup "RAILWAY_DEPLOYMENT_ID", env.lookup "RAILWAY_GIT_COMMIT_SHA",
       env.lookup "RAILWAY_GIT_BRANCH", none, some "railway"⟩
    else if envTruthy env "RENDER" then
      ⟨env.lookup "RENDER_SERVICE_ID", env.lookup "RENDER_GIT_COMMIT",
       env.lookup "RENDER_GIT_BRANCH", none, some "render"⟩
    else if envTruthy env "GITHUB_ACTIONS" then
      ⟨env.lookup "GITHUB_RUN_ID", env.lookup "GITHUB_SHA",
       env.lookup "GITHUB_REF_NAME", none, some "github-actions"⟩
    else if envTruthy env "DEPLOY_ID" || envTruthy env "GIT_COMMIT" then
      ⟨env.lookup "DEPLOY_ID", jsOr (env.lookup "GIT_COMMIT") (env.lookup "COMMIT_SHA"),
       jsOr (env.lookup "GIT_BRANCH") (env.lookup "BRANCH"), none, some "unknown"⟩
    else ⟨none, none, none, none, some "unknown"⟩

/-! ### src/server/forms.ts -/

/-- Model of `TrackFormConfig` from `forms.ts`. -/
structure TrackFormConfig where
  host : String
  websiteId : String

/-- Model of `FormEventPayload` from `forms.ts`, fields in interface order. -/
structure FormEventPayload where
  eventType : String
  formId : String
  formName : Option String
  urlPath : String
  fieldName : Option String
  fieldType : Option String
  fieldIndex : Option Int
  timeOnField : Option Int
  timeSinceStart : Option Int
  errorMessage : Option String
  success : Option Bool

/-- The JSON fields contributed by spreading a `FormEventPayload` into an
object literal (interface declaration order; `undefined` keys dropped). -/
def formEventFields (e : FormEventPayload) : List (String × Json) :=
  [("eventType", .str e.eventType), ("formId", .str e.formId)]
    ++ optStrField "formName" e.formName
    ++ [("urlPath", .str e.urlPath)]
    ++ optStrField "fieldName" e.fieldName
    ++ optStrField "fieldType" e.fieldType
    ++ optNumField "fieldIndex" e.fieldIndex
    ++ optNumField "timeOnField" e.timeOnField
    ++ optNumField "timeSinceStart" e.timeSinceStart
    ++ optStrField "errorMessage" e.errorMessage
    ++ optBoolField "success" e.success

/-- Model of `trackServerFormEvent` from `forms.ts`: the request it issues and the
record it resolves with, given the outcome of its fetch. -/
def trackServerFormEvent (cfg : TrackFormConfig) (event : FormEventPayload)
    (out : FetchOutcome) : HttpRequest × TrackResult :=
  let baseUrl := stripTrailingSlash cfg.host
  let payload := Json.obj (("website", .str cfg.websiteId) :: formEventFields event)
  let request : HttpRequest :=
    ⟨baseUrl ++ "/api/collect/forms", "POST",
     [("Content-Type", "application/json")], payload⟩
  let result : TrackResult :=
    match out with
    | .response s _ =>
      if httpOk s then ⟨true, none⟩ else ⟨false, some ("HTTP " ++ toString s)⟩
    | .thrown m => ⟨false, some (m.getD "Unknown error")⟩
  (request, result)

/-- Model of `trackServerFormEventsBatch` from `forms.ts`. -/
def trackServerFormEventsBatch (cfg : TrackFormConfig)
    (events : List FormEventPayload) (out : FetchOutcome) : HttpRequest × TrackResult :=
  let baseUrl := stripTrailingSlash cfg.host
  let payload := Json.obj
    [("website", .str cfg.websiteId),
     ("events", .arr (events.map (fun e => Json.obj (formEventFields e))))]
  let request : HttpRequest :=
    ⟨baseUrl ++ "/api/collect/forms", "POST",
     [("Content-Type", "application/json")], payload⟩
  let result : TrackResult :=
    match out with
    | .response s _ =>
      if httpOk s then ⟨true, none⟩ else ⟨false, some ("HTTP " ++ toString s)⟩
    | .thrown m => ⟨false, some (m.getD "Unknown error")⟩
  (request, result)

/-! ### src/server/track.ts (second document of src/src/server/forms.ts) -/

/-- Inbound request info consumed by the server helpers.  `headers` models
the `Headers` object (keys already lower-cased, as `Headers.get` is
case-insensitive); `urlPathSearch` models the platform `new URL(request.url)`
parse: `some (pathname ++ search)` when the URL is present and parses,
`none` when absent or the constructor throws. -/
structure ReqInfo where
  headers : List (String × String)
  urlPathSearch : Option String

/-- Model of `ServerTrackConfig` from `track.ts`. -/
structure ServerTrackConfig where
  host : String
  websiteId : Option String
  linkId : Option String
  pixelId : Option String

/-- Model of `ServerTrackOptions` from `track.ts`. -/
structure ServerTrackOptions where
  event : Option String
  data : Option Json
  url : Option String
  title : Option String
  referrer : Option String
  id : Option String
  tag : Option String
  request : Option ReqInfo

/-- Default (empty) options, like the `= {}` default parameter. -/
def ServerTrackOptions.default : ServerTrackOptions :=
  ⟨none, none, none, none, none, none, none, none⟩

/-- The tenant-identifier assignment shared by `trackServerEvent` and the
client provider: `website` from `websiteId`, else `link`, else `pixel`. -/
def idTypeFields (websiteId linkId pixelId : Option String) : List (String × Json) :=
  if optTruthy websiteId then [("website", .str (websiteId.getD ""))]
  else if optTruthy linkId then [("link", .str (linkId.getD ""))]
  else if optTruthy pixelId then [("pixel", .str (pixelId.getD ""))]
  else []

/-- The `payload` object `trackServerEvent` builds, fields in source
order: the request-derived base, the conditional `name`/`data`/`id`/`tag`
spreads, then the tenant-identifier assignment. -/
def serverEventPayload (cfg : ServerTrackConfig) (opts : ServerTrackOptions) :
    List (String × Json) :=
  let hostname := match opts.request with
    | some r => jsOrStr (r.headers.lookup "host") "server"
    | none => "server"
  let language := match opts.request with
    | some r => jsOrStr ((r.headers.lookup "accept-language").map takeToComma) "en"
    | none => "en"
  let requestUrl :=
    if optTruthy opts.url then opts.url.getD ""
    else match opts.request with
      | some r => r.urlPathSearch.getD "/"
      | none => "/"
  let requestReferrer :=
    if optTruthy opts.referrer then opts.referrer.getD ""
    else match opts.request with
      | some r => jsOrStr (r.headers.lookup "referer") ""
      | none => ""
  [("hostname", .str hostname), ("language", .str language),
   ("screen", .str "0x0"), ("url", .str requestUrl),
   ("title", .str (jsOrStr opts.title "")), ("referrer", .str requestReferrer)]
    ++ condStrField "name" opts.event
    ++ condJsonField "data" opts.data
    ++ condStrField "id" opts.id
    ++ condStrField "tag" opts.tag
    ++ idTypeFields cfg.websiteId cfg.linkId cfg.pixelId

/-- Model of `trackServerEvent` from `track.ts`: the request it issues and the record
it resolves with, given the outcome of its fetch. -/
def trackServerEvent (cfg : ServerTrackConfig) (opts : ServerTrackOptions)
    (out : FetchOutcome) : HttpRequest × TrackResult :=
  let baseUrl := stripTrailingSlash cfg.host
  let userAgent := match opts.request with
    | some r => jsOrStr (r.headers.lookup "user-agent") ""
    | none => ""
  let ip := match opts.request with
    | some r => jsOrStr (jsOr ((r.headers.lookup "x-forwarded-for").map takeToComma)
        (r.headers.lookup "x-real-ip")) ""
    | none => ""
  let request : HttpRequest :=
    ⟨baseUrl ++ "/api/send", "POST",
     [("Content-Type", "application/json"), ("User-Agent", userAgent)]
       ++ (if ip = "" then [] else [("X-Forwarded-For", ip)]),
     Json.obj [("type", .str "event"), ("payload", .obj (serverEventPayload cfg opts))]⟩
  let result : TrackResult :=
    match out with
    | .response s _ =>
      if httpOk s then ⟨true, none⟩ else ⟨false, some ("HTTP " ++ toString s)⟩
    | .thrown m => ⟨false, some (m.getD "Unknown error")⟩
  (request, result)

/-- Model of `identifyServerSession` from `track.ts`. -/
def identifyServerSession (cfg : ServerTrackConfig)
    (id : Option String) (data : Option Json) (req : Option ReqInfo)
    (out : FetchOutcome) : HttpRequest × TrackResult :=
  let baseUrl := stripTrailingSlash cfg.host
  let hostname := match req with
    | some r => jsOrStr (r.headers.lookup "host") "server"
    | none => "server"
  let language := match req with
    | some r => jsOrStr ((r.headers.lookup "accept-language").map takeToComma) "en"
    | none => "en"
  let userAgent := match req with
    | some r => jsOrStr (r.headers.lookup "user-agent") ""
    | none => ""
  let ip := match req with
    | some r => jsOrStr (jsOr ((r.headers.lookup "x-forwarded-for").map takeToComma)
        (r.headers.lookup "x-real-ip")) ""
    | none => ""
  let payload := Json.obj
    (optStrField "website" cfg.websiteId
      ++ [("hostname", .str hostname), ("language", .str language),
          ("screen", .str "0x0"), ("url", .str "/"),
          ("title", .str ""), ("referrer", .str "")]
      ++ condStrField "id" id
      ++ condJsonField "data" data)
  let request : HttpRequest :=
    ⟨baseUrl ++ "/api/send", "POST",
     [("Content-Type", "application/json"), ("User-Agent", userAgent)]
       ++ (if ip = "" then [] else [("X-Forwarded-For", ip)]),
     Json.obj [("type", .str "identify"), ("payload", payload)]⟩
  let result : TrackResult :=
    match out with
    | .response s _ =>
      if httpOk s then ⟨true, none⟩ else ⟨false, some ("HTTP " ++ toString s)⟩
    | .thrown m => ⟨false, some (m.getD "Unknown error")⟩
  (request, result)

/-! ### src/server/vitals.ts -/

/-- Model of `TrackVitalsConfig` from `vitals.ts`. -/
structure TrackVitalsConfig where
  host : String
  websiteId : String

/-- Model of `WebVitalPayload` from `vitals.ts`, fields in interface order. -/
structure WebVitalPayload where
  metric : String
  value : Int
  rating : String
  delta : Option Int
  id : Option String
  navigationType : Option String
  attribution : Option Json
  url : Option String
  path : Option String

/-- The JSON fields of one `WebVitalPayload` in an object literal. -/
def webVitalFields (v : WebVitalPayload) : List (String × Json) :=
  [("metric", .str v.metric), ("value", .num v.value), ("rating", .str v.rating)]
    ++ optNumField "delta" v.delta
    ++ optStrField "id" v.id
    ++ optStrField "navigationType" v.navigationType
    ++ optJsonField "attribution" v.attribution
    ++ optStrField "url" v.url
    ++ optStrField "path" v.path

/-- Model of `trackServerVital` from `vitals.ts`.  `procEnv` feeds the
`detectDeployment()` call it makes. -/
def trackServerVital (cfg : TrackVitalsConfig) (vital : WebVitalPayload)
    (procEnv : Option (List (String × String))) (out : FetchOutcome) :
    HttpRequest × TrackResult :=
  let baseUrl := stripTrailingSlash cfg.host
  let deployment := detectDeployment procEnv
  let payload := Json.obj
    (("website", Json.str cfg.websiteId) :: webVitalFields vital
      ++ optStrField "deployId" deployment.deployId)
  let request : HttpRequest :=
    ⟨baseUrl ++ "/api/collect/vitals", "POST",
     [("Content-Type", "application/json")], payload⟩
  let result : TrackResult :=
    match out with
    | .response s _ =>
      if httpOk s then ⟨true, none⟩ else ⟨false, some ("HTTP " ++ toString s)⟩
    | .thrown m => ⟨false, some (m.getD "Unknown error")⟩
  (request, result)

/-- Model of `trackServerVitalsBatch` from `vitals.ts`. -/
def trackServerVitalsBatch (cfg : TrackVitalsConfig) (vitals : List WebVitalPayload)
    (procEnv : Option (List (String × String))) (out : FetchOutcome) :
    HttpRequest × TrackResult :=
  let baseUrl := stripTrailingSlash cfg.host
  let deployment := detectDeployment procEnv
  let payload := Json.obj
    [("website", .str cfg.websiteId),
     ("vitals", .arr (vitals.map (fun v =>
        Json.obj (webVitalFields v ++ optStrField "deployId" deployment.deployId))))]
  let request : HttpRequest :=
    ⟨baseUrl ++ "/api/collect/vitals", "POST",
     [("Content-Type", "application/json")], payload⟩
  let result : TrackResult :=
    match out with
    | .response s _ =>
      if httpOk s then ⟨true, none⟩ else ⟨false, some ("HTTP " ++ toString s)⟩
    | .thrown m => ⟨false, some (m.getD "Unknown error")⟩
  (request, result)

/-- Model of `createWebVitalsReporter`'s metric argument (`vitals.ts`). -/
structure MetricInput where
  name : String
  value : Int
  rating : Option String
  delta : Option Int
  id : Option String
  navigationType : Option String
  attribution : Option Json

/-- The `validMetrics` list inside the reporter. -/
def validMetrics : List String := ["LCP", "INP", "CLS", "TTFB", "FCP"]

/-- Conversion of an incoming metric to the queued `WebVitalPayload`
(`queue.push({...})` in the reporter).  `win` is `some (href, pathname)`
when `window` is defined. -/
def convertMetric (win : Option (String × String)) (m : MetricInput) : WebVitalPayload :=
  ⟨m.name, m.value, jsOrStr m.rating "good", m.delta, m.id, m.navigationType,
   m.attribution, win.map Prod.fst, win.map Prod.snd⟩

/-- One invocation of the reporter closure on a metric: enqueue only the
Core Web Vitals. -/
def reportStep (win : Option (String × String)) (queue : List WebVitalPayload)
    (m : MetricInput) : List WebVitalPayload :=
  if validMetrics.contains m.name then queue ++ [convertMetric win m] else queue

/-- The reporter's debounced `flush`: on a non-empty queue, snapshot it as a
single batch and clear it; on an empty queue do nothing. -/
def flushStep (queue : List WebVitalPayload) :
    Option (List WebVitalPayload) × List WebVitalPayload :=
  if queue.isEmpty then (none, queue) else (some queue, [])

/-- Events in the life of one reporter: a metric arrival or a timer-driven
flush (the 100ms debounce is modelled by the position of flushes). -/
inductive ReporterOp where
  | report (m : MetricInput)
  | flush

/-- Run a sequence of reporter events from a queue plus the batches emitted
so far, returning the final queue and all emitted batches. -/
def runReporter (win : Option (String × String)) :
    List ReporterOp → List WebVitalPayload × List (List WebVitalPayload) →
    List WebVitalPayload × List (List WebVitalPayload)
  | [], s => s
  | .report m :: rest, (q, bs) => runReporter win rest (reportStep win q m, bs)
  | .flush :: rest, (q, bs) =>
    let (b, q') := flushStep q
    runReporter win rest (q', bs ++ (match b with | some x => [x] | none => []))

/-! ### Client provider (`EntrolyticsProvider`, src/client) -/

/-- Model of `EventPayload` as the client builds it: `TrackedProperties` in the
`getPayload` literal order, plus the optional `name`/`data` extensions. -/
structure EventPayload where
  hostname : String
  screen : String
  language : String
  title : String
  url : String
  referrer : String
  tag : Option String
  id : Option String
  website : Option String
  link : Option String
  pixel : Option String
  name : Option String
  data : Option Json

/-- Model of `Partial<EventPayload>`: each `some` field is a key present in the
caller's object and overrides the base on spread. -/
structure PartialEventPayload where
  hostname : Option String
  screen : Option String
  language : Option String
  title : Option String
  url : Option String
  referrer : Option String
  tag : Option String
  id : Option String
  website : Option String
  link : Option String
  pixel : Option String
  name : Option String
  data : Option Json

/-- The all-absent partial payload. -/
def PartialEventPayload.empty : PartialEventPayload :=
  ⟨none, none, none, none, none, none, none, none, none, none, none, none, none⟩

/-- Present-key-wins choice used by the object spread on optional fields. -/
def orOpt {α : Type} (a b : Option α) : Option α :=
  match a with
  | some v => some v
  | none => b

/-- The object spread `{ ...base, ...partial }`. -/
def mergePayload (base : EventPayload) (p : PartialEventPayload) : EventPayload :=
  ⟨p.hostname.getD base.hostname, p.screen.getD base.screen,
   p.language.getD base.language, p.title.getD base.title,
   p.url.getD base.url, p.referrer.getD base.referrer,
   orOpt p.tag base.tag, orOpt p.id base.id,
   orOpt p.website base.website, orOpt p.link base.link, orOpt p.pixel base.pixel,
   orOpt p.name base.name, orOpt p.data base.data⟩

/-- Model of `JSON.stringify` of an `EventPayload` (keys in `getPayload` literal
order, `undefined` keys dropped). -/
def payloadToJson (p : EventPayload) : Json :=
  Json.obj
    ([("hostname", .str p.hostname), ("screen", .str p.screen),
      ("language", .str p.language), ("title", .str p.title),
      ("url", .str p.url), ("referrer", .str p.referrer)]
      ++ optStrField "tag" p.tag
      ++ optStrField "id" p.id
      ++ optStrField "website" p.website
      ++ optStrField "link" p.link
      ++ optStrField "pixel" p.pixel
      ++ optStrField "name" p.name
      ++ optJsonField "data" p.data)

/-- Provider props that the send path reads (`EntrolyticsProviderProps`
after destructuring defaults). -/
structure ClientConfig where
  websiteId : Option String
  linkId : Option String
  pixelId : Option String
  host : Option String
  domains : Option (List String)
  respectDoNotTrack : Bool
  ignoreLocalhost : Bool
  beforeSend : Option (String → EventPayload → Option EventPayload)
  proxyEnabled : Bool
  proxyCollectPath : Option String
  useEdgeRuntime : Bool

/-- Browser environment read by the provider. -/
structure ClientEnv where
  hasWindow : Bool
  hostname : String
  screenW : Nat
  screenH : Nat
  language : String
  title : String
  locPathSearchHash : String
  localStorageDisabledFlag : Bool
  dntOn : Bool

/-- Mutable provider state: the `isEnabled` React state, the `cacheRef`,
the current tag/identity, and the URL/referrer refs. -/
structure ProviderState where
  isEnabled : Bool
  cache : Option String
  tag : Option String
  identity : Option String
  currentUrl : String
  currentRef : String

/-- Model of `endpoint` memo of the provider. -/
def endpoint (cfg : ClientConfig) : String :=
  if cfg.proxyEnabled then jsOrStr cfg.proxyCollectPath "/api/collect"
  else
    let endpointPath := if cfg.useEdgeRuntime then "/api/send-edge" else "/api/send"
    if optTruthy cfg.host then stripTrailingSlash (cfg.host.getD "") ++ endpointPath
    else endpointPath

/-- Model of `checkTrackingDisabled` from the provider, in source order. -/
def checkTrackingDisabled (cfg : ClientConfig) (env : ClientEnv)
    (st : ProviderState) : Bool :=
  if !env.hasWindow then true
  else if !optTruthy cfg.websiteId && !optTruthy cfg.linkId && !optTruthy cfg.pixelId then true
  else if !st.isEnabled then true
  else if env.localStorageDisabledFlag then true
  else if (match cfg.domains with
           | some ds => decide (0 < ds.length) && !(ds.contains env.hostname)
           | none => false) then true
  else if cfg.ignoreLocalhost
      && (env.hostname = "localhost" || env.hostname = "127.0.0.1") then true
  else if cfg.respectDoNotTrack && env.dntOn then true
  else false

/-- Model of `getPayload` from the provider. -/
def getPayload (cfg : ClientConfig) (env : ClientEnv) (st : ProviderState) :
    EventPayload :=
  let wlp : Option String × Option String × Option String :=
    if optTruthy cfg.websiteId then (cfg.websiteId, none, none)
    else if optTruthy cfg.linkId then (none, cfg.linkId, none)
    else if optTruthy cfg.pixelId then (none, none, cfg.pixelId)
    else (none, none, none)
  { hostname := env.hostname
    screen := toString env.screenW ++ "x" ++ toString env.screenH
    language := env.language
    title := env.title
    url := if st.currentUrl = "" then env.locPathSearchHash else st.currentUrl
    referrer := st.currentRef
    tag := st.tag
    id := st.identity
    website := wlp.1
    link := wlp.2.1
    pixel := wlp.2.2
    name := none
    data := none }

/-- The `PayloadType` union `'event' | 'identify'`. -/
inductive PayloadType where
  | event
  | identify
deriving DecidableEq

/-- The wire string of a payload type. -/
def PayloadType.toStr : PayloadType → String
  | .event => "event"
  | .identify => "identify"

/-- Parsed collector response as the provider reads it: `disabled` is the
truthiness of `data.disabled`, `cache` is `some c` exactly when
`data.cache` is a truthy value `c`. -/
structure RespData where
  disabled : Bool
  cache : Option String

/-- Outcome of the provider's `fetch` + `res.json()`: a parse result
(`none` models a falsy JSON body such as `null`), or a caught error. -/
inductive SendOutcome where
  | parsed (data : Option RespData)
  | failed

/-- The `beforeSend` application inside `send`: `some` is the payload to
send, `none` the cancelled send. -/
def applyBeforeSend (cfg : ClientConfig) (ty : PayloadType) (p : EventPayload) :
    Option EventPayload :=
  match cfg.beforeSend with
  | some f => f ty.toStr p
  | none => some p

/-- Model of `send` from the provider: the request it issues (none when tracking is
disabled or `beforeSend` cancels) and the provider state afterwards. -/
def sendStep (cfg : ClientConfig) (env : ClientEnv) (st : ProviderState)
    (ty : PayloadType) (payload : EventPayload) (out : SendOutcome) :
    Option HttpRequest × ProviderState :=
  if checkTrackingDisabled cfg env st then (none, st)
  else
    match applyBeforeSend cfg ty payload with
    | none => (none, st)
    | some finalPayload =>
      let request : HttpRequest :=
        ⟨endpoint cfg, "POST",
         [("Content-Type", "application/json")]
           ++ (match st.cache with
               | some c => [("x-entrolytics-cache", c)]
               | none => []),
         Json.obj [("type", .str ty.toStr), ("payload", payloadToJson finalPayload)]⟩
      let st' : ProviderState :=
        match out with
        | .parsed (some d) =>
          { st with
            isEnabled := if d.disabled then false else st.isEnabled
            cache := match d.cache with | some c => some c | none => st.cache }
        | .parsed none => st
        | .failed => st
      (some request, st')

/-- The four call shapes of the client `track` function. -/
inductive TrackArg where
  | unit
  | name (n : String) (data : Option Json)
  | part (p : PartialEventPayload)
  | fn (f : EventPayload → EventPayload)

/-- The payload `track` hands to `send` for each call shape. -/
def trackPayload (cfg : ClientConfig) (env : ClientEnv) (st : ProviderState)
    (arg : TrackArg) : EventPayload :=
  let base := getPayload cfg env st
  match arg with
  | .unit => base
  | .name n d => { base with name := some n, data := d }
  | .part p => mergePayload base p
  | .fn f => f base

/-- Model of `track` from the provider: build the payload, then `send` it as an
`'event'`. -/
def track (cfg : ClientConfig) (env : ClientEnv) (st : ProviderState)
    (arg : TrackArg) (out : SendOutcome) : Option HttpRequest × ProviderState :=
  sendStep cfg env st .event (trackPayload cfg env st arg) out

/-! ### src/server/proxy.ts -/

/-- Proxy mode of `createProxyHandler`. -/
inductive ProxyMode where
  | direct
  | cloak
deriving DecidableEq

/-- Model of `createProxyHandler`'s configuration. -/
structure ProxyHandlerConfig where
  host : String
  websiteId : Option String
  mode : ProxyMode

/-- Body forwarding of the proxy `POST` handler.  In cloak mode with a
truthy website id the handler runs `if (body.payload) body.payload.website
= websiteId` on the parsed JSON body; `.error ()` is the caught-throw path
(reading `.payload` off `null`, or strict-mode assignment to a primitive),
which answers 502 without forwarding. -/
def proxyForwardBody (mode : ProxyMode) (websiteId : Option String)
    (body : Json) : Except Unit Json :=
  if mode = .cloak && optTruthy websiteId then
    match body with
    | .null => .error ()
    | .obj fields =>
      match fields.lookup "payload" with
      | some p =>
        if p.truthy then
          match p with
          | .obj pf =>
            .ok (.obj (setField fields "payload"
              (.obj (setField pf "website" (.str (websiteId.getD ""))))))
          | .arr es => .ok (.obj (setField fields "payload" (.arr es)))
          | _ => .error ()
        else .ok (.obj fields)
      | none => .ok (.obj fields)
    | other => .ok other
  else .ok body

/-- The proxy `POST` handler: the upstream request it issues for a parsed
incoming body, or the 502 path. -/
def proxyPOST (cfg : ProxyHandlerConfig) (reqHeaders : List (String × String))
    (body : Json) : Except Unit HttpRequest :=
  match proxyForwardBody cfg.mode cfg.websiteId body with
  | .error _ => .error ()
  | .ok fwd =>
    let clientIp := jsOrStr
      (jsOr ((reqHeaders.lookup "x-forwarded-for").map (fun s => (takeToComma s).trim))
        (reqHeaders.lookup "x-real-ip")) ""
    .ok ⟨stripTrailingSlash cfg.host ++ "/api/send", "POST",
      [("Content-Type", "application/json"),
       ("User-Agent", jsOrStr (reqHeaders.lookup "user-agent") ""),
       ("X-Forwarded-For", clientIp), ("X-Real-IP", clientIp)], fwd⟩

/-- Model of `url.pathname.replace(/^\/api\/collect/, '')`. -/
def stripApiCollect (pathname : String) : String :=
  if strStartsWith pathname "/api/collect" then ⟨pathname.data.drop 12⟩ else pathname

/-- The character sequence of the literal part of the injected attribute,
`data-website-id="` (opening quote included). -/
def dwiPat : List Char :=
  ['d', 'a', 't', 'a', '-', 'w', 'e', 'b', 's', 'i', 't', 'e', '-', 'i', 'd', '=', '"']

/-- Scan to the first double quote: `some (before, after)` splits off the
characters before it and the remainder after it. -/
def splitAtQuote : List Char → Option (List Char × List Char)
  | [] => none
  | c :: cs =>
    if c = '"' then some ([], cs)
    else match splitAtQuote cs with
      | some (a, b) => some (c :: a, b)
      | none => none

/-- The regex match `data-website-id="[^"]*"` at the head of the input:
`some after` is the remainder past the closing quote. -/
def dwiMatch (l : List Char) : Option (List Char) :=
  if dwiPat.isPrefixOf l then
    match splitAtQuote (l.drop dwiPat.length) with
    | some (_, after) => some after
    | none => none
  else none

theorem splitAtQuote_length : ∀ {l a b : List Char},
    splitAtQuote l = some (a, b) → b.length < l.length := by
  intro l
  induction l with
  | nil => intro a b h; simp [splitAtQuote] at h
  | cons c cs ih =>
    intro a b h
    by_cases hc : c = '"'
    · simp [splitAtQuote, hc] at h
      simp [← h.2]
    · simp only [splitAtQuote, if_neg hc] at h
      cases hsp : splitAtQuote cs with
      | none => rw [hsp] at h; simp at h
      | some p =>
        rw [hsp] at h
        obtain ⟨a', b'⟩ := p
        simp at h
        have := ih hsp
        simp [← h.2]
        omega

theorem dwiMatch_length {l after : List Char} (h : dwiMatch l = some after) :
    after.length < l.length := by
  unfold dwiMatch at h
  by_cases hp : dwiPat.isPrefixOf l
  · rw [if_pos hp] at h
    cases hsp : splitAtQuote (l.drop dwiPat.length) with
    | none => rw [hsp] at h; simp at h
    | some p =>
      obtain ⟨a', b'⟩ := p
      rw [hsp] at h
      simp at h
      subst h
      have h1 := splitAtQuote_length hsp
      have h2 : (l.drop dwiPat.length).length ≤ l.length := by
        simp
      omega
  · rw [if_neg hp] at h; simp at h

/-- The global replace `content.replace(/data-website-id="[^"]*"/g,
`data-website-id="${websiteId}"`)`: left-to-right scan, each match replaced
and scanning resumed after it, positions with no match (including a pattern
head with no closing quote) advanced by one character. -/
def dwiRepl (w : List Char) : List Char → List Char
  | [] => []
  | c :: cs =>
    match h : dwiMatch (c :: cs) with
    | some after => dwiPat ++ w ++ '"' :: dwiRepl w after
    | none => c :: dwiRepl w cs
termination_by l => l.length
decreasing_by
  · exact dwiMatch_length h
  · simp

/-- String wrapper for `dwiRepl`. -/
def dwiReplaceAll (w content : String) : String :=
  (dwiRepl w.toList content.toList).asString

/-- Content transformation of the proxy `GET` handler: in cloak mode with a
truthy website id and a requested path ending in `.js`, rewrite every
`data-website-id` attribute of the fetched script. -/
def proxyGETContent (mode : ProxyMode) (websiteId : Option String)
    (reqPathname content : String) : String :=
  let path := stripApiCollect reqPathname
  if mode = .cloak && optTruthy websiteId && strEndsWith path ".js" then
    dwiReplaceAll (websiteId.getD "") content
  else content

/-- Upstream URL fetched by the proxy `GET` handler
(`${baseUrl}${path || '/script.js'}`). -/
def proxyGETUrl (host reqPathname : String) : String :=
  let path := stripApiCollect reqPathname
  stripTrailingSlash host ++ (if path = "" then "/script.js" else path)

/-! ### Config plugin (`withEntrolytics`) -/

/-- One rewrite rule. -/
structure RewriteEntry where
  source : String
  destination : String
deriving DecidableEq

/-- The value a Next.js `rewrites` function resolves with: either a plain
array or the `{ beforeFiles, afterFiles, fallback }` object. -/
inductive RewritesValue where
  | arr (entries : List RewriteEntry)
  | obj (beforeFiles afterFiles fallback : List RewriteEntry)
deriving DecidableEq

/-- One header rule of a Next.js `headers` result. -/
structure HeaderRule where
  source : String
  headers : List (String × String)
deriving DecidableEq

/-- The framework configuration object, with the three fields the plugin
touches explicit and every remaining field folded into `other` (preserved
verbatim by the `...nextConfig` spread).  The async `rewrites`/`headers`
functions are modelled by the values they resolve with. -/
structure NextConfig where
  env : List (String × String)
  rewrites : Option RewritesValue
  headers : Option (List HeaderRule)
  other : List (String × String)

/-- The plugin's `proxy` sub-configuration. -/
structure PluginProxyConfig where
  enabled : Bool
  scriptPath : Option String
  collectPath : Option String
  mode : Option ProxyMode

/-- Model of `EntrolyticsPluginConfig`. -/
structure PluginConfig where
  websiteId : String
  host : Option String
  proxy : Option PluginProxyConfig
  debug : Bool

/-- JS object-spread key update on a string-valued record: an existing key
keeps its position, a new key is appended. -/
def setEnv : List (String × String) → String → String → List (String × String)
  | [], k, v => [(k, v)]
  | (k', v') :: rest, k, v =>
    if k' = k then (k, v) :: rest else (k', v') :: setEnv rest k v

/-- The merged `env` object built by the plugin. -/
def pluginEnv (pc : PluginConfig) (ncEnv : List (String × String)) :
    List (String × String) :=
  let e1 := setEnv ncEnv "NEXT_PUBLIC_ENTROLYTICS_WEBSITE_ID" pc.websiteId
  let e2 := if optTruthy pc.host then
      setEnv e1 "NEXT_PUBLIC_ENTROLYTICS_HOST" (pc.host.getD "") else e1
  if pc.debug then setEnv e2 "NEXT_PUBLIC_ENTROLYTICS_DEBUG" "true" else e2

/-- Model of `proxy?.enabled` of the plugin config. -/
def proxyOn (pc : PluginConfig) : Bool :=
  match pc.proxy with
  | some p => p.enabled
  | none => false

/-- Normalisation of the existing rewrites to object form (`Array.isArray`
branch of `setupRewrites`; a missing `rewrites` function yields the empty
object). -/
def normalizeRewrites : Option RewritesValue →
    List RewriteEntry × List RewriteEntry × List RewriteEntry
  | none => ([], [], [])
  | some (.arr es) => (es, [], [])
  | some (.obj b a f) => (b, a, f)

/-- Model of `setupRewrites` from the plugin: append the script and collect proxy
rewrites to `beforeFiles` when proxying is on and a host is configured. -/
def setupRewrites (pc : PluginConfig) (nc : NextConfig) : RewritesValue :=
  let n := normalizeRewrites nc.rewrites
  if proxyOn pc && optTruthy pc.host then
    let scriptPath := jsOrStr (pc.proxy.bind (fun p => p.scriptPath)) "/analytics.js"
    let collectPath := jsOrStr (pc.proxy.bind (fun p => p.collectPath)) "/api/collect"
    let baseUrl := stripTrailingSlash (pc.host.getD "")
    .obj (n.1 ++ [⟨scriptPath, baseUrl ++ "/script.js"⟩,
                  ⟨collectPath ++ "/:path*", baseUrl ++ "/api/send"⟩]) n.2.1 n.2.2
  else .obj n.1 n.2.1 n.2.2

/-- A single quote character, used inside CSP header values. -/
def sq : String := (Char.ofNat 39).toString

/-- Model of the platform `new URL(host).origin` for scheme://authority
URLs: the scheme and everything up to the first slash of the remainder. -/
def originOf (url : String) : String :=
  match url.splitOn "://" with
  | [scheme, rest] => scheme ++ "://" ++ (rest.toList.takeWhile (fun c => c ≠ '/')).asString
  | _ => url

/-- Model of `setupHeaders` from the plugin: push one CSP rule for the analytics
origin onto the existing header rules. -/
def setupHeaders (pc : PluginConfig) (nc : NextConfig) : List HeaderRule :=
  let existing := nc.headers.getD []
  if optTruthy pc.host then
    let origin := originOf (pc.host.getD "")
    existing ++ [⟨"/(.*)",
      [("Content-Security-Policy",
        "connect-src " ++ sq ++ "self" ++ sq ++ " " ++ origin
          ++ "; script-src " ++ sq ++ "self" ++ sq ++ " " ++ sq ++ "unsafe-inline"
          ++ sq ++ " " ++ sq ++ "unsafe-eval" ++ sq ++ " " ++ origin ++ ";")]⟩]
  else existing

/-- Model of `withEntrolytics pc nc`: the configuration returned by the plugin. -/
def withEntrolytics (pc : PluginConfig) (nc : NextConfig) : NextConfig :=
  { env := pluginEnv pc nc.env
    rewrites := if proxyOn pc then some (setupRewrites pc nc) else nc.rewrites
    headers := if optTruthy pc.host && nc.headers.isNone
               then some (setupHeaders pc nc) else nc.headers
    other := nc.other }

/-! ### Middleware (`withEntrolyticsMiddleware`) -/

/-- Matching of one converted glob pattern against a pathname: the source
escapes every regex metacharacter except `*`, maps `*` to `.*`, and anchors
with `^...$`, so a pattern is a sequence of literal characters and
arbitrary-sequence wildcards matched against the whole string. -/
def globMatch : List Char → List Char → Bool
  | [], s => s.isEmpty
  | c :: p, s =>
    if c = '*' then
      globMatch p s || (match s with
        | [] => false
        | _ :: s' => globMatch (c :: p) s')
    else
      match s with
      | [] => false
      | d :: s' => c = d && globMatch p s'
termination_by p s => (p.length, s.length)

/-- Model of `routeToRegex(pattern).test(s)`. -/
def globTest (pattern s : String) : Bool :=
  globMatch pattern.toList s.toList

/-- Model of `MiddlewareConfig` with its optional route lists. -/
structure MiddlewareConfig where
  host : String
  websiteId : String
  trackRoutes : Option (List String)
  excludeRoutes : Option (List String)
  tag : Option String

/-- The destructuring default `trackRoutes = []`. -/
def mwTrackRoutes (cfg : MiddlewareConfig) : List String :=
  cfg.trackRoutes.getD []

/-- The destructuring default for `excludeRoutes`. -/
def mwExcludeRoutes (cfg : MiddlewareConfig) : List String :=
  cfg.excludeRoutes.getD ["/api/collect", "/_next", "/favicon.ico"]

/-- Model of `shouldTrack` from the middleware, in source order: exclusions first,
then the default-deny on an empty track list, then the track patterns. -/
def shouldTrack (cfg : MiddlewareConfig) (pathname : String) : Bool :=
  if (mwExcludeRoutes cfg).any (fun p => globTest p pathname) then false
  else if (mwTrackRoutes cfg).isEmpty then false
  else (mwTrackRoutes cfg).any (fun p => globTest p pathname)

/-- The incoming request as the middleware reads it. -/
structure MwRequest where
  pathname : String
  search : String
  method : String
  headers : List (String × String)

/-- One invocation of the handler returned by `withEntrolyticsMiddleware`:
the fire-and-forget tracking request (when any) and the returned response.
The response type is abstract; the handler returns its `response` argument. -/
def middlewareStep {α : Type} (cfg : MiddlewareConfig) (req : MwRequest)
    (response : α) : Option HttpRequest × α :=
  if shouldTrack cfg req.pathname then
    let hostname := jsOrStr (req.headers.lookup "host") "server"
    let language := jsOrStr ((req.headers.lookup "accept-language").map takeToComma) "en"
    let userAgent := jsOrStr (req.headers.lookup "user-agent") ""
    let ip := jsOrStr (jsOr ((req.headers.lookup "x-forwarded-for").map takeToComma)
        (req.headers.lookup "x-real-ip")) ""
    let payload := Json.obj
      ([("website", .str cfg.websiteId), ("hostname", .str hostname),
        ("language", .str language), ("screen", .str "0x0"),
        ("url", .str (req.pathname ++ req.search)), ("title", .str ""),
        ("referrer", .str (jsOrStr (req.headers.lookup "referer") "")),
        ("name", .str "middleware-request"),
        ("data", .obj [("method", .str req.method), ("pathname", .str req.pathname)])]
        ++ condStrField "tag" cfg.tag)
    (some ⟨stripTrailingSlash cfg.host ++ "/api/send", "POST",
      [("Content-Type", "application/json"), ("User-Agent", userAgent)]
        ++ (if ip = "" then [] else [("X-Forwarded-For", ip)]),
      Json.obj [("type", .str "event"), ("payload", payload)]⟩, response)
  else (none, response)

/-- Does a JSON body have exactly the `{ type: 'event'|'identify', payload }`
shape the spec describes for collection-endpoint POSTs? -/
def isTypePayloadBody (j : Json) : Bool :=
  match j with
  | .obj [("type", .str t), ("payload", _)] => t == "event" || t == "identify"
  | _ => false

/-! ## Helper lemmas -/

theorem lookup_append {β : Type} (k : String) (l₁ l₂ : List (String × β)) :
    List.lookup k (l₁ ++ l₂) =
      (match List.lookup k l₁ with
       | some v => some v
       | none => List.lookup k l₂) := by
  induction l₁ with
  | nil => simp [List.lookup]
  | cons p rest ih =>
    obtain ⟨k', v⟩ := p
    cases hkk : (k == k') <;> simp [List.lookup, hkk, ih]

theorem lookup_cons_eq {β : Type} (k : String) (v : β) (l : List (String × β)) :
    List.lookup k ((k, v) :: l) = some v := by
  simp [List.lookup]

theorem lookup_cons_ne {β : Type} {k k' : String} (v : β) (l : List (String × β))
    (h : (k == k') = false) : List.lookup k ((k', v) :: l) = List.lookup k l := by
  simp [List.lookup, h]

theorem lookup_optStr_ne {k k' : String} {v : Option String}
    (h : (k == k') = false) : List.lookup k (optStrField k' v) = none := by
  cases v <;> simp [optStrField, List.lookup, h]

theorem lookup_optNum_ne {k k' : String} {v : Option Int}
    (h : (k == k') = false) : List.lookup k (optNumField k' v) = none := by
  cases v <;> simp [optNumField, List.lookup, h]

theorem lookup_optBool_ne {k k' : String} {v : Option Bool}
    (h : (k == k') = false) : List.lookup k (optBoolField k' v) = none := by
  cases v <;> simp [optBoolField, List.lookup, h]

theorem lookup_optJson_ne {k k' : String} {v : Option Json}
    (h : (k == k') = false) : List.lookup k (optJsonField k' v) = none := by
  cases v <;> simp [optJsonField, List.lookup, h]

theorem lookup_condStr_ne {k k' : String} {v : Option String}
    (h : (k == k') = false) : List.lookup k (condStrField k' v) = none := by
  cases v with
  | none => rfl
  | some s =>
    by_cases hs : s = "" <;> simp [condStrField, hs, List.lookup, h]

theorem lookup_condJson_ne {k k' : String} {v : Option Json}
    (h : (k == k') = false) : List.lookup k (condJsonField k' v) = none := by
  cases v with
  | none => rfl
  | some j =>
    by_cases hj : j.truthy <;> simp [condJsonField, hj, List.lookup, h]

theorem splitAtQuote_no_quote (x b : List Char) (hx : '"' ∉ x) :
    splitAtQuote (x ++ '"' :: b) = some (x, b) := by
  induction x with
  | nil => simp [splitAtQuote]
  | cons c cs ih =>
    have hc : c ≠ '"' := by intro h; exact hx (by simp [h])
    have hcs : '"' ∉ cs := fun h => hx (List.mem_cons_of_mem _ h)
    simp [splitAtQuote, hc, ih hcs]

theorem dwiMatch_append (x b : List Char) (hx : '"' ∉ x) :
    dwiMatch (dwiPat ++ (x ++ '"' :: b)) = some b := by
  have hp : dwiPat.isPrefixOf (dwiPat ++ (x ++ '"' :: b)) = true := by
    simp [List.isPrefixOf_iff_prefix]
  unfold dwiMatch
  rw [if_pos hp, List.drop_left, splitAtQuote_no_quote x b hx]

theorem dwiRepl_cons_some {w : List Char} {c : Char} {cs after : List Char}
    (hm : dwiMatch (c :: cs) = some after) :
    dwiRepl w (c :: cs) = dwiPat ++ w ++ '"' :: dwiRepl w after := by
  rw [dwiRepl.eq_def]
  split
  · simp_all
  · rename_i h'
    obtain ⟨rfl, rfl⟩ := List.cons.inj h'
    split
    · rename_i h''
      rw [hm] at h''
      obtain rfl := Option.some.inj h''
      rfl
    · rename_i h''
      rw [hm] at h''
      exact Option.noConfusion h''

theorem dwiRepl_cons_none {w : List Char} {c : Char} {cs : List Char}
    (hm : dwiMatch (c :: cs) = none) :
    dwiRepl w (c :: cs) = c :: dwiRepl w cs := by
  rw [dwiRepl.eq_def]
  split
  · simp_all
  · rename_i h'
    obtain ⟨rfl, rfl⟩ := List.cons.inj h'
    split
    · rename_i h''
      rw [hm] at h''
      exact Option.noConfusion h''
    · rfl

theorem dwiRepl_nil (w : List Char) : dwiRepl w [] = [] := by
  rw [dwiRepl.eq_def]

theorem dwiMatch_none_of_clean {l : List Char} (h : ¬ dwiPat <+: l) :
    dwiMatch l = none := by
  cases hb : dwiPat.isPrefixOf l with
  | false => simp [dwiMatch, hb]
  | true => exact absurd (List.isPrefixOf_iff_prefix.mp hb) h

theorem isInfix_cons {l cs : List Char} (c : Char) (h : l <:+: cs) :
    l <:+: c :: cs := by
  obtain ⟨s, t, ht⟩ := h
  exact ⟨c :: s, t, by simp [List.cons_append, ht]⟩

/-- The attribute literal `data-website-id="` has no nonempty proper
border: no proper suffix of it is also a prefix (its only quote is the last
character), so a literal occurrence can never straddle the boundary between
a clean segment and a following occurrence. -/
theorem dwiPat_no_border :
    ∀ k, k < 17 → 0 < k → dwiPat.drop k ≠ dwiPat.take (17 - k) := by decide

theorem not_prefix_pat_cons (c : Char) (a' rest : List Char)
    (h : ¬ dwiPat <:+: (c :: a')) :
    ¬ dwiPat <+: ((c :: a') ++ (dwiPat ++ rest)) := by
  intro hp
  have hpl : dwiPat.length = 17 := rfl
  have heq := List.prefix_iff_eq_take.mp hp
  rw [hpl, List.take_append_eq_append_take] at heq
  by_cases hk : 17 ≤ (c :: a').length
  · have h0 : 17 - (c :: a').length = 0 := by omega
    rw [h0, List.take_zero, List.append_nil] at heq
    have hpre : dwiPat <+: (c :: a') := by
      rw [heq]; exact List.take_prefix _ _
    exact h hpre.isInfix
  · push_neg at hk
    have hlen : (c :: a').length ≤ 17 := by omega
    rw [List.take_of_length_le hlen, List.take_append_eq_append_take] at heq
    have h0 : 17 - (c :: a').length - dwiPat.length = 0 := by rw [hpl]; omega
    rw [h0, List.take_zero, List.append_nil] at heq
    have hdrop := congrArg (List.drop (c :: a').length) heq
    rw [List.drop_left] at hdrop
    exact dwiPat_no_border (c :: a').length hk (by simp) hdrop

/-- Content in which the attribute literal does not occur at all is left
unchanged by the replacement (in particular a script with no
`data-website-id` attribute passes through verbatim). -/
theorem dwiRepl_no_pattern (w : List Char) : ∀ (l : List Char),
    ¬ dwiPat <:+: l → dwiRepl w l = l := by
  intro l
  induction l with
  | nil => intro _; exact dwiRepl_nil w
  | cons c cs ih =>
    intro h
    have hpre : ¬ dwiPat <+: (c :: cs) := fun hp => h hp.isInfix
    rw [dwiRepl_cons_none (dwiMatch_none_of_clean hpre),
      ih (fun hinf => h (isInfix_cons c hinf))]

/-- One replacement step: a segment containing no occurrence of the
attribute literal, followed by an attribute, is rewritten to the segment
plus the injected attribute, and scanning continues after it. -/
theorem dwiRepl_step (w x b : List Char) (hx : '"' ∉ x) :
    ∀ (a : List Char), ¬ dwiPat <:+: a →
    dwiRepl w (a ++ (dwiPat ++ (x ++ '"' :: b)))
      = a ++ (dwiPat ++ (w ++ '"' :: dwiRepl w b)) := by
  intro a
  induction a with
  | nil =>
    intro _
    simp only [List.nil_append]
    have hm : dwiMatch (dwiPat ++ (x ++ '"' :: b)) = some b := dwiMatch_append x b hx
    simp only [dwiPat, List.cons_append, List.nil_append] at hm ⊢
    rw [dwiRepl_cons_some hm]
    simp [dwiPat, List.cons_append, List.append_assoc]
  | cons c a' ih =>
    intro ha
    have ha' : ¬ dwiPat <:+: a' := fun hinf => ha (isInfix_cons c hinf)
    have hm : dwiMatch ((c :: a') ++ (dwiPat ++ (x ++ '"' :: b))) = none :=
      dwiMatch_none_of_clean (not_prefix_pat_cons c a' _ ha)
    simp only [List.cons_append] at hm ⊢
    rw [dwiRepl_cons_none hm, ih ha']

/-- Full characterisation of the global replace on any content decomposed
into its attribute occurrences: every clean segment survives verbatim and
every attribute value is rewritten to `w`.  Any script text whose
attributes are well-formed decomposes this way, with zero attributes as the
`parts = []` case. -/
theorem dwiRepl_replaces_all (w : List Char) :
    ∀ (parts : List (List Char × List Char)) (t : List Char),
      (∀ p ∈ parts, ¬ dwiPat <:+: p.1 ∧ '"' ∉ p.2) → ¬ dwiPat <:+: t →
      dwiRepl w ((parts.map (fun p => p.1 ++ dwiPat ++ p.2 ++ ['"'])).flatten ++ t)
        = (parts.map (fun p => p.1 ++ dwiPat ++ w ++ ['"'])).flatten ++ t := by
  intro parts
  induction parts with
  | nil =>
    intro t _ ht
    simpa using dwiRepl_no_pattern w t ht
  | cons p ps ih =>
    intro t hps ht
    obtain ⟨s, x⟩ := p
    have hs := (hps (s, x) (by simp)).1
    have hx := (hps (s, x) (by simp)).2
    have hrest : ∀ q ∈ ps, ¬ dwiPat <:+: q.1 ∧ '"' ∉ q.2 :=
      fun q hq => hps q (by simp [hq])
    have ih' := ih t hrest ht
    simp only [List.map_cons, List.flatten_cons, List.append_assoc,
      List.singleton_append, List.cons_append] at ih' ⊢
    rw [dwiRepl_step w x _ hx s hs]
    simp only [List.nil_append]
    rw [ih']

theorem setEnv_lookup_eq (l : List (String × String)) (k v : String) :
    List.lookup k (setEnv l k v) = some v := by
  induction l with
  | nil => simp [setEnv, List.lookup]
  | cons p rest ih =>
    obtain ⟨k', v'⟩ := p
    by_cases h : k' = k
    · subst h; simp [setEnv, List.lookup]
    · have hb : (k == k') = false := beq_eq_false_iff_ne.mpr (fun he => h he.symm)
      simp [setEnv, h, List.lookup, hb, ih]

theorem setEnv_lookup_ne (l : List (String × String)) (k k' v : String)
    (h : k' ≠ k) : List.lookup k' (setEnv l k v) = List.lookup k' l := by
  have hb : (k' == k) = false := beq_eq_false_iff_ne.mpr h
  induction l with
  | nil => simp [setEnv, List.lookup, hb]
  | cons p rest ih =>
    obtain ⟨k0, v0⟩ := p
    by_cases h0 : k0 = k
    · subst h0; simp [setEnv, List.lookup, hb]
    · simp only [setEnv, if_neg h0]
      cases hkk : (k' == k0) <;> simp [List.lookup, hkk, ih]

/-! ## Claim theorems -/

/-- C1: every server helper (trackServerEvent, identifyServerSession,
trackServerFormEvent, trackServerFormEventsBatch, trackServerVital,
trackServerVitalsBatch), being a total function of the outcome of its
single fetch, never throws and resolves with `{ ok: true }` exactly when
the response status is OK, with `{ ok: false, error: "HTTP <status>" }` on
a non-OK response, and with `{ ok: false }` carrying the caught exception's
message (or `"Unknown error"` for a non-Error throw) on a rejected fetch. -/
theorem serverHelpers_result_spec
    (fc : TrackFormConfig) (ev : FormEventPayload) (evs : List FormEventPayload)
    (sc : ServerTrackConfig) (opts : ServerTrackOptions)
    (sid : Option String) (sdata : Option Json) (sreq : Option ReqInfo)
    (vc : TrackVitalsConfig) (v : WebVitalPayload) (vs : List WebVitalPayload)
    (penv : Option (List (String × String))) (out : FetchOutcome) :
    let expected : TrackResult :=
      match out with
      | .response s _ =>
        if httpOk s then ⟨true, none⟩ else ⟨false, some ("HTTP " ++ toString s)⟩
      | .thrown m => ⟨false, some (m.getD "Unknown error")⟩
    (trackServerEvent sc opts out).2 = expected ∧
    (identifyServerSession sc sid sdata sreq out).2 = expected ∧
    (trackServerFormEvent fc ev out).2 = expected ∧
    (trackServerFormEventsBatch fc evs out).2 = expected ∧
    (trackServerVital vc v penv out).2 = expected ∧
    (trackServerVitalsBatch vc vs penv out).2 = expected := by
  intro expected
  cases out <;> exact ⟨rfl, rfl, rfl, rfl, rfl, rfl⟩

/-- C6: `trackServerEvent` always POSTs to `{host}/api/send` with body type
tag `'event'`, and `identifyServerSession` always POSTs to
`{host}/api/send` with body type tag `'identify'`; the target URL and the
type tag are the same for every configuration and every option set. -/
theorem trackServer_send_endpoints
    (sc : ServerTrackConfig) (opts : ServerTrackOptions)
    (sid : Option String) (sdata : Option Json) (sreq : Option ReqInfo)
    (out : FetchOutcome) :
    (trackServerEvent sc opts out).1.url = stripTrailingSlash sc.host ++ "/api/send" ∧
    (trackServerEvent sc opts out).1.method = "POST" ∧
    Json.get (trackServerEvent sc opts out).1.body "type" = some (.str "event") ∧
    (identifyServerSession sc sid sdata sreq out).1.url
      = stripTrailingSlash sc.host ++ "/api/send" ∧
    (identifyServerSession sc sid sdata sreq out).1.method = "POST" ∧
    Json.get (identifyServerSession sc sid sdata sreq out).1.body "type"
      = some (.str "identify") := by
  refine ⟨rfl, rfl, ?_, rfl, rfl, ?_⟩ <;> rfl

/-- Conservation of queued vitals across any reporter run: the emitted
batches plus the remaining queue are exactly the previously emitted batches
plus the starting queue plus every validly reported metric, in order. -/
theorem runReporter_conservation (win : Option (String × String))
    (ops : List ReporterOp) : ∀ (q : List WebVitalPayload)
    (bs : List (List WebVitalPayload)),
    (runReporter win ops (q, bs)).2.flatten ++ (runReporter win ops (q, bs)).1
      = bs.flatten ++ q ++ ops.filterMap (fun op =>
          match op with
          | .report mm =>
            if validMetrics.contains mm.name then some (convertMetric win mm) else none
          | .flush => none) := by
  induction ops with
  | nil => intro q bs; simp [runReporter]
  | cons op rest ih =>
    intro q bs
    cases op with
    | report mm =>
      simp only [runReporter]
      rw [ih]
      by_cases h : mm.name ∈ validMetrics <;>
        simp [reportStep, h, List.filterMap_cons, List.append_assoc]
    | flush =>
      simp only [runReporter]
      by_cases h : q.isEmpty
      · have hq : q = [] := by simpa using h
        subst hq
        simp [flushStep, ih, List.filterMap_cons]
      · have h' : q.isEmpty = false := by simpa using h
        simp only [flushStep, h']
        rw [ih]
        simp [List.filterMap_cons]

/-- C7: the reporter enqueues a metric exactly when its name is one of LCP,
INP, CLS, TTFB, FCP; a flush of a non-empty queue emits the whole queue as
one batch and empties it, a flush of an empty queue emits nothing; and over
any run, emitted batches plus the final queue account for every validly
reported metric exactly once, so no queued vital appears in two batches. -/
theorem webVitals_queue_discipline (win : Option (String × String))
    (q : List WebVitalPayload) (m : MetricInput)
    (ops : List ReporterOp) (bs : List (List WebVitalPayload)) :
    (validMetrics.contains m.name = true →
      reportStep win q m = q ++ [convertMetric win m]) ∧
    (validMetrics.contains m.name = false → reportStep win q m = q) ∧
    (q.isEmpty = false → flushStep q = (some q, [])) ∧
    flushStep [] = (none, []) ∧
    ((runReporter win ops (q, bs)).2.flatten ++ (runReporter win ops (q, bs)).1
      = bs.flatten ++ q ++ ops.filterMap (fun op =>
          match op with
          | .report mm =>
            if validMetrics.contains mm.name then some (convertMetric win mm) else none
          | .flush => none)) := by
  refine ⟨fun h => by simp at h; simp [reportStep, h],
    fun h => by simp at h; simp [reportStep, h],
    fun h => by simp [flushStep, h], rfl, runReporter_conservation win ops q bs⟩

/-- Witness for C7 at a concrete run: the metric `FID` is dropped, `LCP` is
enqueued, and one flush emits the queued vital and empties the queue. -/
theorem webVitals_queue_discipline_witness :
    reportStep none [] ⟨"LCP", 21, some "good", none, none, none, none⟩
      = [convertMetric none ⟨"LCP", 21, some "good", none, none, none, none⟩] ∧
    reportStep none [] ⟨"FID", 4, none, none, none, none, none⟩ = [] ∧
    flushStep [convertMetric none ⟨"LCP", 21, some "good", none, none, none, none⟩]
      = (some [convertMetric none ⟨"LCP", 21, some "good", none, none, none, none⟩], []) := by
  have h1 := webVitals_queue_discipline none []
    ⟨"LCP", 21, some "good", none, none, none, none⟩ [] []
  have h2 := webVitals_queue_discipline none []
    ⟨"FID", 4, none, none, none, none, none⟩ [] []
  have h3 := webVitals_queue_discipline none
    [convertMetric none ⟨"LCP", 21, some "good", none, none, none, none⟩]
    ⟨"FID", 4, none, none, none, none, none⟩ [] []
  refine ⟨?_, ?_, ?_⟩
  · have := h1.1 (by decide)
    simpa using this
  · exact h2.2.1 (by decide)
  · exact h3.2.2.1 (by decide)

/-- C9: every built payload carries at most one tenant identifier, chosen
with priority website over link over pixel, both in the client's
`getPayload` and in `trackServerEvent`'s payload; and with none of the
three configured the client treats tracking as disabled and `send` issues
no request. -/
theorem tenant_id_priority
    (cfg : ClientConfig) (env : ClientEnv) (st : ProviderState)
    (sc : ServerTrackConfig) (opts : ServerTrackOptions) (out : FetchOutcome) :
    (optTruthy cfg.websiteId = true →
      (getPayload cfg env st).website = cfg.websiteId ∧
      (getPayload cfg env st).link = none ∧ (getPayload cfg env st).pixel = none) ∧
    (optTruthy cfg.websiteId = false → optTruthy cfg.linkId = true →
      (getPayload cfg env st).website = none ∧
      (getPayload cfg env st).link = cfg.linkId ∧
      (getPayload cfg env st).pixel = none) ∧
    (optTruthy cfg.websiteId = false → optTruthy cfg.linkId = false →
      optTruthy cfg.pixelId = true →
      (getPayload cfg env st).website = none ∧ (getPayload cfg env st).link = none ∧
      (getPayload cfg env st).pixel = cfg.pixelId) ∧
    (optTruthy cfg.websiteId = false → optTruthy cfg.linkId = false →
      optTruthy cfg.pixelId = false →
      (getPayload cfg env st).website = none ∧ (getPayload cfg env st).link = none ∧
      (getPayload cfg env st).pixel = none ∧
      checkTrackingDisabled cfg env st = true ∧
      (∀ ty pl sout, sendStep cfg env st ty pl sout = (none, st))) ∧
    (∀ pj, Json.get (trackServerEvent sc opts out).1.body "payload" = some pj →
      (optTruthy sc.websiteId = true →
        pj.get "website" = some (.str (sc.websiteId.getD "")) ∧
        pj.get "link" = none ∧ pj.get "pixel" = none) ∧
      (optTruthy sc.websiteId = false → optTruthy sc.linkId = true →
        pj.get "website" = none ∧
        pj.get "link" = some (.str (sc.linkId.getD "")) ∧
        pj.get "pixel" = none) ∧
      (optTruthy sc.websiteId = false → optTruthy sc.linkId = false →
        optTruthy sc.pixelId = true →
        pj.get "website" = none ∧ pj.get "link" = none ∧
        pj.get "pixel" = some (.str (sc.pixelId.getD ""))) ∧
      (optTruthy sc.websiteId = false → optTruthy sc.linkId = false →
        optTruthy sc.pixelId = false →
        pj.get "website" = none ∧ pj.get "link" = none ∧ pj.get "pixel" = none)) := by
  refine ⟨?_, ?_, ?_, ?_, ?_⟩
  · intro h; simp [getPayload, h]
  · intro h1 h2; simp [getPayload, h1, h2]
  · intro h1 h2 h3; simp [getPayload, h1, h2, h3]
  · intro h1 h2 h3
    have hcd : checkTrackingDisabled cfg env st = true := by
      unfold checkTrackingDisabled
      cases env.hasWindow <;> simp [h1, h2, h3]
    exact ⟨by simp [getPayload, h1, h2, h3], by simp [getPayload, h1, h2, h3],
      by simp [getPayload, h1, h2, h3], hcd,
      fun ty pl sout => by simp [sendStep, hcd]⟩
  · intro pj hpj
    have hb : Json.get (trackServerEvent sc opts out).1.body "payload"
        = some (.obj (serverEventPayload sc opts)) := by
      show Json.get (Json.obj [("type", .str "event"),
        ("payload", .obj (serverEventPayload sc opts))]) "payload" = _
      simp only [Json.get]
      rw [lookup_cons_ne _ _ (by decide), lookup_cons_eq]
    rw [hb] at hpj
    injection hpj with hpj
    subst hpj
    refine ⟨?_, ?_, ?_, ?_⟩
    · intro h
      refine ⟨?_, ?_, ?_⟩ <;>
        simp [Json.get, serverEventPayload, lookup_append, List.lookup,
          lookup_condStr_ne, lookup_condJson_ne, idTypeFields, h]
    · intro h1 h2
      refine ⟨?_, ?_, ?_⟩ <;>
        simp [Json.get, serverEventPayload, lookup_append, List.lookup,
          lookup_condStr_ne, lookup_condJson_ne, idTypeFields, h1, h2]
    · intro h1 h2 h3
      refine ⟨?_, ?_, ?_⟩ <;>
        simp [Json.get, serverEventPayload, lookup_append, List.lookup,
          lookup_condStr_ne, lookup_condJson_ne, idTypeFields, h1, h2, h3]
    · intro h1 h2 h3
      refine ⟨?_, ?_, ?_⟩ <;>
        simp [Json.get, serverEventPayload, lookup_append, List.lookup,
          lookup_condStr_ne, lookup_condJson_ne, idTypeFields, h1, h2, h3]

/-- Witness for C9 at concrete configurations: link wins when no website id
is set, the server payload carries only the pixel id when only it is set,
and with no identifier at all the client sends nothing. -/
theorem tenant_id_priority_witness :
    (getPayload ⟨none, some "L1", some "P1", none, none, false, false, none, false, none, true⟩
      ⟨true, "app.example", 800, 600, "en", "T", "/p", false, false⟩
      ⟨true, none, none, none, "", ""⟩).link = some "L1" ∧
    (getPayload ⟨none, some "L1", some "P1", none, none, false, false, none, false, none, true⟩
      ⟨true, "app.example", 800, 600, "en", "T", "/p", false, false⟩
      ⟨true, none, none, none, "", ""⟩).website = none ∧
    sendStep ⟨none, none, none, none, none, false, false, none, false, none, true⟩
      ⟨true, "app.example", 800, 600, "en", "T", "/p", false, false⟩
      ⟨true, none, none, none, "", ""⟩ .event
      ⟨"h", "800x600", "en", "T", "/", "", none, none, none, none, none, none, none⟩
      .failed
      = (none, ⟨true, none, none, none, "", ""⟩) ∧
    Json.get (.obj (serverEventPayload ⟨"https://h.example", none, none, some "PX"⟩
      ServerTrackOptions.default)) "pixel" = some (.str "PX") := by
  have h1 := tenant_id_priority
    ⟨none, some "L1", some "P1", none, none, false, false, none, false, none, true⟩
    ⟨true, "app.example", 800, 600, "en", "T", "/p", false, false⟩
    ⟨true, none, none, none, "", ""⟩
    ⟨"https://h.example", none, none, some "PX"⟩
    ServerTrackOptions.default (.response 200 .null)
  have h2 := tenant_id_priority
    ⟨none, none, none, none, none, false, false, none, false, none, true⟩
    ⟨true, "app.example", 800, 600, "en", "T", "/p", false, false⟩
    ⟨true, none, none, none, "", ""⟩
    ⟨"https://h.example", none, none, some "PX"⟩
    ServerTrackOptions.default (.response 200 .null)
  refine ⟨(h1.2.1 (by decide) (by decide)).2.1, (h1.2.1 (by decide) (by decide)).1,
    (h2.2.2.2.1 (by decide) (by decide) (by decide)).2.2.2.2 .event
      ⟨"h", "800x600", "en", "T", "/", "", none, none, none, none, none, none, none⟩
      .failed,
    ((h1.2.2.2.2 (.obj (serverEventPayload ⟨"https://h.example", none, none, some "PX"⟩
        ServerTrackOptions.default)) rfl).2.2.1
      (by decide) (by decide) (by decide)).2.2⟩

/-- C10: the middleware fires a tracking request exactly when the pathname
matches some track pattern and no exclude pattern; with the default empty
`trackRoutes` it never fires; and it always returns its response argument
unchanged. -/
theorem middleware_track_spec {α : Type} (cfg : MiddlewareConfig)
    (req : MwRequest) (resp : α) :
    ((middlewareStep cfg req resp).1.isSome
      = ((mwTrackRoutes cfg).any (fun p => globTest p req.pathname)
          && !((mwExcludeRoutes cfg).any (fun p => globTest p req.pathname)))) ∧
    (middlewareStep cfg req resp).2 = resp ∧
    (cfg.trackRoutes = none → (middlewareStep cfg req resp).1 = none) := by
  have hst : shouldTrack cfg req.pathname
      = ((mwTrackRoutes cfg).any (fun p => globTest p req.pathname)
          && !((mwExcludeRoutes cfg).any (fun p => globTest p req.pathname))) := by
    unfold shouldTrack
    cases hE : (mwExcludeRoutes cfg).any (fun p => globTest p req.pathname) <;>
      cases hl : mwTrackRoutes cfg <;> simp [hE, hl]
  refine ⟨?_, ?_, ?_⟩
  · cases hs : shouldTrack cfg req.pathname <;>
      simp [middlewareStep, hs, ← hst]
  · cases hs : shouldTrack cfg req.pathname <;> simp [middlewareStep, hs]
  · intro h
    have hnil : mwTrackRoutes cfg = [] := by simp [mwTrackRoutes, h]
    have hs : shouldTrack cfg req.pathname = false := by
      unfold shouldTrack
      cases hE : (mwExcludeRoutes cfg).any (fun p => globTest p req.pathname) <;>
        simp [hE, hnil]
    simp [middlewareStep, hs]

/-- Witness for C10: a default-configured middleware (no `trackRoutes`)
fires nothing and passes the response through. -/
theorem middleware_track_spec_witness :
    (middlewareStep ⟨"https://h.example", "W", none, none, none⟩
      ⟨"/api/users", "", "GET", []⟩ (37 : Nat)).1 = none ∧
    (middlewareStep ⟨"https://h.example", "W", none, none, none⟩
      ⟨"/api/users", "", "GET", []⟩ (37 : Nat)).2 = 37 := by
  have h := middleware_track_spec ⟨"https://h.example", "W", none, none, none⟩
    ⟨"/api/users", "", "GET", []⟩ (37 : Nat)
  exact ⟨h.2.2 rfl, h.2.1⟩

/-- C3: once a send's parsed response has a truthy `disabled` field the
provider state records tracking as disabled, a disabled state makes every
subsequent send perform no network request (and leaves the state
unchanged, so it stays disabled); and a response `cache` value is stored
and attached as the `x-entrolytics-cache` header of the next issued
request. -/
theorem client_disable_and_cache
    (cfg : ClientConfig) (env : ClientEnv) (st : ProviderState)
    (ty : PayloadType) (pl q : EventPayload) (out : SendOutcome)
    (d : RespData) (c : String) :
    (st.isEnabled = false → sendStep cfg env st ty pl out = (none, st)) ∧
    (checkTrackingDisabled cfg env st = false → applyBeforeSend cfg ty pl = some q →
      ((d.disabled = true →
         (sendStep cfg env st ty pl (.parsed (some d))).2.isEnabled = false) ∧
       (d.cache = some c →
         (sendStep cfg env st ty pl (.parsed (some d))).2.cache = some c) ∧
       (st.cache = some c →
         ∃ r, (sendStep cfg env st ty pl out).1 = some r ∧
           ("x-entrolytics-cache", c) ∈ r.headers))) := by
  constructor
  · intro h
    have hcd : checkTrackingDisabled cfg env st = true := by
      unfold checkTrackingDisabled
      cases env.hasWindow <;> simp [h]
    simp [sendStep, hcd]
  · intro hcd hq
    refine ⟨?_, ?_, ?_⟩
    · intro hd; simp [sendStep, hcd, hq, hd]
    · intro hc; simp [sendStep, hcd, hq, hc]
    · intro hsc
      refine ⟨⟨endpoint cfg, "POST",
        [("Content-Type", "application/json"), ("x-entrolytics-cache", c)],
        Json.obj [("type", .str ty.toStr), ("payload", payloadToJson q)]⟩, ?_, ?_⟩
      · simp [sendStep, hcd, hq, hsc]
      · simp

/-- Witness for C3 at a concrete send: a `{ disabled: true, cache: "tok" }`
response disables tracking and stores the cache token, a disabled state
sends nothing, and a stored token rides the next request's headers. -/
theorem client_disable_and_cache_witness :
    (sendStep ⟨some "W", none, none, none, none, false, false, none, false, none, true⟩
      ⟨true, "ex.com", 100, 200, "en", "t", "/a", false, false⟩
      ⟨true, none, none, none, "", ""⟩ .event
      ⟨"h", "1x1", "en", "t", "/", "", none, none, none, none, none, none, none⟩
      (.parsed (some ⟨true, some "tok"⟩))).2.isEnabled = false ∧
    (sendStep ⟨some "W", none, none, none, none, false, false, none, false, none, true⟩
      ⟨true, "ex.com", 100, 200, "en", "t", "/a", false, false⟩
      ⟨true, none, none, none, "", ""⟩ .event
      ⟨"h", "1x1", "en", "t", "/", "", none, none, none, none, none, none, none⟩
      (.parsed (some ⟨true, some "tok"⟩))).2.cache = some "tok" ∧
    sendStep ⟨some "W", none, none, none, none, false, false, none, false, none, true⟩
      ⟨true, "ex.com", 100, 200, "en", "t", "/a", false, false⟩
      ⟨false, some "tok", none, none, "", ""⟩ .event
      ⟨"h", "1x1", "en", "t", "/", "", none, none, none, none, none, none, none⟩
      .failed
      = (none, ⟨false, some "tok", none, none, "", ""⟩) ∧
    (∃ r, (sendStep ⟨some "W", none, none, none, none, false, false, none, false, none, true⟩
      ⟨true, "ex.com", 100, 200, "en", "t", "/a", false, false⟩
      ⟨true, some "tok", none, none, "", ""⟩ .event
      ⟨"h", "1x1", "en", "t", "/", "", none, none, none, none, none, none, none⟩
      .failed).1 = some r ∧ ("x-entrolytics-cache", "tok") ∈ r.headers) := by
  have h1 := client_disable_and_cache
    ⟨some "W", none, none, none, none, false, false, none, false, none, true⟩
    ⟨true, "ex.com", 100, 200, "en", "t", "/a", false, false⟩
    ⟨true, none, none, none, "", ""⟩ .event
    ⟨"h", "1x1", "en", "t", "/", "", none, none, none, none, none, none, none⟩
    ⟨"h", "1x1", "en", "t", "/", "", none, none, none, none, none, none, none⟩
    (.parsed (some ⟨true, some "tok"⟩)) ⟨true, some "tok"⟩ "tok"
  have h2 := client_disable_and_cache
    ⟨some "W", none, none, none, none, false, false, none, false, none, true⟩
    ⟨true, "ex.com", 100, 200, "en", "t", "/a", false, false⟩
    ⟨false, some "tok", none, none, "", ""⟩ .event
    ⟨"h", "1x1", "en", "t", "/", "", none, none, none, none, none, none, none⟩
    ⟨"h", "1x1", "en", "t", "/", "", none, none, none, none, none, none, none⟩
    .failed ⟨true, some "tok"⟩ "tok"
  have h3 := client_disable_and_cache
    ⟨some "W", none, none, none, none, false, false, none, false, none, true⟩
    ⟨true, "ex.com", 100, 200, "en", "t", "/a", false, false⟩
    ⟨true, some "tok", none, none, "", ""⟩ .event
    ⟨"h", "1x1", "en", "t", "/", "", none, none, none, none, none, none, none⟩
    ⟨"h", "1x1", "en", "t", "/", "", none, none, none, none, none, none, none⟩
    .failed ⟨true, some "tok"⟩ "tok"
  exact ⟨(h1.2 (by decide) rfl).1 rfl, (h1.2 (by decide) rfl).2.1 rfl,
    h2.1 rfl, (h3.2 (by decide) rfl).2.2 rfl⟩

/-- C8: with tracking enabled and no `beforeSend`, a `track` call with a
partial payload sends exactly the environment-derived base payload with the
caller's fields overriding it field by field, and a `track` call with an
event name and optional data sends exactly the base payload extended with
that name and data, wrapped as `{ type: 'event', payload }`. -/
theorem track_payload_build
    (cfg : ClientConfig) (env : ClientEnv) (st : ProviderState)
    (p : PartialEventPayload) (n : String) (d : Option Json) (out : SendOutcome)
    (hcd : checkTrackingDisabled cfg env st = false)
    (hbs : cfg.beforeSend = none) :
    (∃ r, (track cfg env st (.part p) out).1 = some r ∧
       r.body = Json.obj [("type", .str "event"),
         ("payload", payloadToJson (mergePayload (getPayload cfg env st) p))]) ∧
    (∃ r, (track cfg env st (.name n d) out).1 = some r ∧
       r.body = Json.obj [("type", .str "event"),
         ("payload", payloadToJson
           { getPayload cfg env st with name := some n, data := d })]) := by
  constructor
  · refine ⟨⟨endpoint cfg, "POST",
      [("Content-Type", "application/json")]
        ++ (match st.cache with
            | some c => [("x-entrolytics-cache", c)]
            | none => []),
      Json.obj [("type", .str "event"),
        ("payload", payloadToJson (mergePayload (getPayload cfg env st) p))]⟩, ?_, rfl⟩
    simp [track, sendStep, trackPayload, applyBeforeSend, hcd, hbs, PayloadType.toStr]
  · refine ⟨⟨endpoint cfg, "POST",
      [("Content-Type", "application/json")]
        ++ (match st.cache with
            | some c => [("x-entrolytics-cache", c)]
            | none => []),
      Json.obj [("type", .str "event"),
        ("payload", payloadToJson
          { getPayload cfg env st with name := some n, data := d })]⟩, ?_, rfl⟩
    simp [track, sendStep, trackPayload, applyBeforeSend, hcd, hbs, PayloadType.toStr]

/-- Witness for C8 at a concrete provider: a partial payload overriding the
URL and an event-name call both issue requests with the predicted bodies. -/
theorem track_payload_build_witness :
    (∃ r, (track ⟨some "W", none, none, none, none, false, false, none, false, none, true⟩
      ⟨true, "ex.com", 100, 200, "en", "t", "/a", false, false⟩
      ⟨true, none, none, none, "", ""⟩
      (.part ⟨none, none, none, none, some "/override", none, none, none, none, none,
        none, some "ev", none⟩) .failed).1 = some r ∧
      r.body = Json.obj [("type", .str "event"),
        ("payload", payloadToJson (mergePayload
          (getPayload ⟨some "W", none, none, none, none, false, false, none, false, none, true⟩
            ⟨true, "ex.com", 100, 200, "en", "t", "/a", false, false⟩
            ⟨true, none, none, none, "", ""⟩)
          ⟨none, none, none, none, some "/override", none, none, none, none, none,
            none, some "ev", none⟩))]) := by
  exact (track_payload_build
    ⟨some "W", none, none, none, none, false, false, none, false, none, true⟩
    ⟨true, "ex.com", 100, 200, "en", "t", "/a", false, false⟩
    ⟨true, none, none, none, "", ""⟩
    ⟨none, none, none, none, some "/override", none, none, none, none, none,
      none, some "ev", none⟩
    "n" none .failed (by decide) rfl).1

/-- C4: in cloak mode with a configured website id the proxy POST handler
forwards the incoming body with `payload.website` set to the configured id
whenever the body carries a payload object, and the GET handler rewrites
every `data-website-id="..."` attribute of a fetched `.js` script to the
configured id — stated over an arbitrary decomposition of the script into
clean segments (no occurrence of the attribute literal) and attributes,
covering any number of attributes including none; in direct mode both
handlers pass body and script through unchanged. -/
theorem proxy_cloak_spec (w : String) (fields pf : List (String × Json))
    (body : Json) (pathname content : String)
    (parts : List (List Char × List Char)) (t : List Char)
    (wid : Option String) :
    (w ≠ "" → fields.lookup "payload" = some (.obj pf) →
      proxyForwardBody .cloak (some w) (.obj fields)
        = .ok (.obj (setField fields "payload"
            (.obj (setField pf "website" (.str w)))))) ∧
    proxyForwardBody .direct wid body = .ok body ∧
    (w ≠ "" → strEndsWith (stripApiCollect pathname) ".js" = true →
      (∀ p ∈ parts, ¬ dwiPat <:+: p.1 ∧ '"' ∉ p.2) → ¬ dwiPat <:+: t →
      proxyGETContent .cloak (some w) pathname
        ⟨(parts.map (fun p => p.1 ++ dwiPat ++ p.2 ++ ['"'])).flatten ++ t⟩
        = ⟨(parts.map (fun p => p.1 ++ dwiPat ++ w.toList ++ ['"'])).flatten ++ t⟩) ∧
    proxyGETContent .direct wid pathname content = content := by
  refine ⟨?_, rfl, ?_, rfl⟩
  · intro hw hpf
    simp [proxyForwardBody, optTruthy, hw, hpf, Json.truthy]
  · intro hw hjs hparts ht
    have hb : (w != "") = true := bne_iff_ne.mpr hw
    simp only [proxyGETContent, optTruthy, hjs, hb, Bool.and_true, Bool.true_and,
      Option.getD_some, if_true]
    show dwiReplaceAll w _ = _
    simp only [dwiReplaceAll, String.toList]
    rw [dwiRepl_replaces_all w.data parts t hparts ht]
    rfl

/-- Witness for C4 at a concrete body and script: the payload's website is
overwritten, and in a script carrying two attributes amid ordinary text
both are rewritten and everything else survives verbatim. -/
theorem proxy_cloak_spec_witness :
    proxyForwardBody .cloak (some "WID")
      (.obj [("type", .str "event"),
             ("payload", .obj [("website", .str "old"), ("url", .str "/p")])])
      = .ok (.obj [("type", .str "event"),
             ("payload", .obj [("website", .str "WID"), ("url", .str "/p")])]) ∧
    proxyGETContent .cloak (some "WID") "/api/collect/script.js"
      "<script defer data-website-id=\"OLD1\" src=\"u\"></script><div data-website-id=\"OLD2\" hidden>"
      = "<script defer data-website-id=\"WID\" src=\"u\"></script><div data-website-id=\"WID\" hidden>" := by
  have h := proxy_cloak_spec "WID"
    [("type", Json.str "event"),
     ("payload", .obj [("website", .str "old"), ("url", .str "/p")])]
    [("website", Json.str "old"), ("url", Json.str "/p")]
    .null "/api/collect/script.js" ""
    [("<script defer ".toList, "OLD1".toList),
     (" src=\"u\"></script><div ".toList, "OLD2".toList)]
    " hidden>".toList none
  exact ⟨h.1 (by decide) rfl,
    h.2.2.1 (by decide) (by decide) (by decide) (by decide)⟩

/-- C5 counterexample: the claim requires the produced `env` to contain all
entries of `nextConfig.env`, but an entry under the plugin's own
`NEXT_PUBLIC_ENTROLYTICS_WEBSITE_ID` key is overridden, not kept. -/
theorem plugin_env_preserve_cex :
    ("NEXT_PUBLIC_ENTROLYTICS_WEBSITE_ID", "x")
      ∉ (withEntrolytics ⟨"y", none, none, false⟩
          ⟨[("NEXT_PUBLIC_ENTROLYTICS_WEBSITE_ID", "x")], none, none, []⟩).env := by
  decide

/-- C5 (amended): `withEntrolytics` keeps every field other than `env`,
`rewrites` and `headers`; the produced env agrees with `nextConfig.env` on
every key the plugin does not write and maps
`NEXT_PUBLIC_ENTROLYTICS_WEBSITE_ID` to the plugin's websiteId; the
rewrites function is replaced only when `proxy.enabled`, in which case,
given a host, exactly the script and collect entries are appended to
`beforeFiles` with all pre-existing rewrites preserved. -/
theorem plugin_transform_spec (pc : PluginConfig) (nc : NextConfig) :
    (withEntrolytics pc nc).other = nc.other ∧
    (∀ k v, List.lookup k nc.env = some v →
      k ≠ "NEXT_PUBLIC_ENTROLYTICS_WEBSITE_ID" →
      (k = "NEXT_PUBLIC_ENTROLYTICS_HOST" → optTruthy pc.host = false) →
      (k = "NEXT_PUBLIC_ENTROLYTICS_DEBUG" → pc.debug = false) →
      List.lookup k (withEntrolytics pc nc).env = some v) ∧
    List.lookup "NEXT_PUBLIC_ENTROLYTICS_WEBSITE_ID" (withEntrolytics pc nc).env
      = some pc.websiteId ∧
    (proxyOn pc = false → (withEntrolytics pc nc).rewrites = nc.rewrites) ∧
    (proxyOn pc = true → optTruthy pc.host = true →
      (withEntrolytics pc nc).rewrites
        = some (.obj ((normalizeRewrites nc.rewrites).1
            ++ [⟨jsOrStr (pc.proxy.bind (fun p => p.scriptPath)) "/analytics.js",
                 stripTrailingSlash (pc.host.getD "") ++ "/script.js"⟩,
                ⟨jsOrStr (pc.proxy.bind (fun p => p.collectPath)) "/api/collect"
                   ++ "/:path*",
                 stripTrailingSlash (pc.host.getD "") ++ "/api/send"⟩])
            (normalizeRewrites nc.rewrites).2.1
            (normalizeRewrites nc.rewrites).2.2)) := by
  refine ⟨rfl, ?_, ?_, ?_, ?_⟩
  · intro k v hkv hW hH hD
    have hgen : ∀ (l : List (String × String)) (cond : Bool) (key val : String),
        (k = key → cond = false) → List.lookup k l = some v →
        List.lookup k (if cond then setEnv l key val else l) = some v := by
      intro l cond key val hck hl
      cases cond with
      | false => simpa using hl
      | true =>
        have hk : k ≠ key := fun he => absurd (hck he) (by simp)
        simp only [if_true]
        rw [setEnv_lookup_ne _ _ _ _ hk]
        exact hl
    show List.lookup k (pluginEnv pc nc.env) = some v
    simp only [pluginEnv]
    exact hgen _ pc.debug _ _ hD
      (hgen _ (optTruthy pc.host) _ _ hH
        (by rw [setEnv_lookup_ne _ _ _ _ hW]; exact hkv))
  · have hgen : ∀ (l : List (String × String)) (cond : Bool) (key val : String),
        key ≠ "NEXT_PUBLIC_ENTROLYTICS_WEBSITE_ID" →
        List.lookup "NEXT_PUBLIC_ENTROLYTICS_WEBSITE_ID" l = some pc.websiteId →
        List.lookup "NEXT_PUBLIC_ENTROLYTICS_WEBSITE_ID"
          (if cond then setEnv l key val else l) = some pc.websiteId := by
      intro l cond key val hk hl
      cases cond with
      | false => simpa using hl
      | true =>
        simp only [if_true]
        rw [setEnv_lookup_ne _ _ _ _ (fun he => hk he.symm)]
        exact hl
    show List.lookup _ (pluginEnv pc nc.env) = some pc.websiteId
    simp only [pluginEnv]
    exact hgen _ pc.debug _ _ (by decide)
      (hgen _ (optTruthy pc.host) _ _ (by decide) (setEnv_lookup_eq _ _ _))
  · intro h; simp [withEntrolytics, h]
  · intro h1 h2; simp [withEntrolytics, setupRewrites, h1, h2]

/-- Witness for C5 at a concrete plugin and framework config: foreign env
entries and the untouched fields survive, the website id is injected, and
proxy mode appends exactly the two rewrites. -/
theorem plugin_transform_spec_witness :
    (withEntrolytics ⟨"wid", some "https://a.example/", some ⟨true, none, none, none⟩, false⟩
      ⟨[("FOO", "bar")], some (.arr [⟨"/a", "/b"⟩]), none,
       [("reactStrictMode", "true")]⟩).other = [("reactStrictMode", "true")] ∧
    List.lookup "FOO"
      (withEntrolytics ⟨"wid", some "https://a.example/", some ⟨true, none, none, none⟩, false⟩
        ⟨[("FOO", "bar")], some (.arr [⟨"/a", "/b"⟩]), none,
         [("reactStrictMode", "true")]⟩).env = some "bar" ∧
    List.lookup "NEXT_PUBLIC_ENTROLYTICS_WEBSITE_ID"
      (withEntrolytics ⟨"wid", some "https://a.example/", some ⟨true, none, none, none⟩, false⟩
        ⟨[("FOO", "bar")], some (.arr [⟨"/a", "/b"⟩]), none,
         [("reactStrictMode", "true")]⟩).env = some "wid" ∧
    (withEntrolytics ⟨"wid", some "https://a.example/", some ⟨true, none, none, none⟩, false⟩
      ⟨[("FOO", "bar")], some (.arr [⟨"/a", "/b"⟩]), none,
       [("reactStrictMode", "true")]⟩).rewrites
      = some (.obj [⟨"/a", "/b"⟩,
          ⟨"/analytics.js", "https://a.example/script.js"⟩,
          ⟨"/api/collect/:path*", "https://a.example/api/send"⟩] [] []) := by
  have h := plugin_transform_spec
    ⟨"wid", some "https://a.example/", some ⟨true, none, none, none⟩, false⟩
    ⟨[("FOO", "bar")], some (.arr [⟨"/a", "/b"⟩]), none, [("reactStrictMode", "true")]⟩
  refine ⟨h.1,
    h.2.1 "FOO" "bar" rfl (by decide)
      (fun he => absurd he (by decide)) (fun he => absurd he (by decide)),
    h.2.2.1, ?_⟩
  have h5 := h.2.2.2.2 (by decide) (by decide)
  rw [h5]
  decide

/-- C2 counterexample: `trackServerFormEvent` POSTs to the
`/api/collect/forms` collection endpoint with a flat body that is not of
the `{ type, payload }` shape the claim requires of every collection POST. -/
theorem collect_body_shape_cex :
    (trackServerFormEvent ⟨"https://e.example", "W1"⟩
      ⟨"submit", "f1", none, "/contact", none, none, none, none, none, none, none⟩
      (.response 200 .null)).1.url = "https://e.example/api/collect/forms" ∧
    isTypePayloadBody (trackServerFormEvent ⟨"https://e.example", "W1"⟩
      ⟨"submit", "f1", none, "/contact", none, none, none, none, none, none, none⟩
      (.response 200 .null)).1.body = false := by
  exact ⟨by decide, by decide⟩

/-- C2 (amended): POSTs to `/api/send` and `/api/send-edge` (server event
and identify helpers, the client provider's send, the middleware) carry the
`{ type: 'event'|'identify', payload }` JSON body, while POSTs to
`/api/collect/forms` and `/api/collect/vitals` carry the flat payload
object (website id plus event fields) with no type/payload wrapper. -/
theorem post_body_shapes
    (sc : ServerTrackConfig) (opts : ServerTrackOptions)
    (sid : Option String) (sdata : Option Json) (sreq : Option ReqInfo)
    (ccfg : ClientConfig) (cenv : ClientEnv) (cst : ProviderState)
    (ty : PayloadType) (pl : EventPayload) (sout : SendOutcome)
    (mcfg : MiddlewareConfig) (mreq : MwRequest)
    (fc : TrackFormConfig) (ev : FormEventPayload) (evs : List FormEventPayload)
    (vc : TrackVitalsConfig) (v : WebVitalPayload) (vs : List WebVitalPayload)
    (penv : Option (List (String × String))) (out : FetchOutcome)
    {α : Type} (resp : α) :
    isTypePayloadBody (trackServerEvent sc opts out).1.body = true ∧
    isTypePayloadBody (identifyServerSession sc sid sdata sreq out).1.body = true ∧
    (∀ r, (sendStep ccfg cenv cst ty pl sout).1 = some r →
      isTypePayloadBody r.body = true) ∧
    (∀ r, (middlewareStep mcfg mreq resp).1 = some r →
      isTypePayloadBody r.body = true) ∧
    (trackServerFormEvent fc ev out).1.body
      = Json.obj (("website", Json.str fc.websiteId) :: formEventFields ev) ∧
    (trackServerFormEventsBatch fc evs out).1.body
      = Json.obj [("website", Json.str fc.websiteId),
          ("events", Json.arr (evs.map (fun e => Json.obj (formEventFields e))))] ∧
    (trackServerVital vc v penv out).1.body
      = Json.obj (("website", Json.str vc.websiteId) :: webVitalFields v
          ++ optStrField "deployId" (detectDeployment penv).deployId) ∧
    (trackServerVitalsBatch vc vs penv out).1.body
      = Json.obj [("website", Json.str vc.websiteId),
          ("vitals", Json.arr (vs.map (fun u => Json.obj (webVitalFields u
              ++ optStrField "deployId" (detectDeployment penv).deployId))))] := by
  refine ⟨rfl, rfl, ?_, ?_, rfl, rfl, rfl, rfl⟩
  · intro r hr
    unfold sendStep at hr
    cases hcd : checkTrackingDisabled ccfg cenv cst with
    | true => simp [hcd] at hr
    | false =>
      simp only [hcd, Bool.false_eq_true, if_false] at hr
      cases hq : applyBeforeSend ccfg ty pl with
      | none => simp [hq] at hr
      | some q =>
        simp only [hq] at hr
        obtain rfl := Option.some.inj hr
        cases ty <;> rfl
  · intro r hr
    unfold middlewareStep at hr
    cases hs : shouldTrack mcfg mreq.pathname with
    | true =>
      simp only [hs, if_true] at hr
      obtain rfl := Option.some.inj hr
      rfl
    | false => simp [hs] at hr

/-- Witness for C2 at concrete calls: the server event helper, a client
send and a fired middleware all wrap `{ type, payload }`, and a form POST
carries the flat body. -/
theorem post_body_shapes_witness :
    isTypePayloadBody (trackServerEvent ⟨"https://h.example", some "W", none, none⟩
      ServerTrackOptions.default (.response 200 .null)).1.body = true ∧
    ((sendStep ⟨some "W", none, none, none, none, false, false, none, false, none, true⟩
      ⟨true, "ex.com", 100, 200, "en", "t", "/a", false, false⟩
      ⟨true, none, none, none, "", ""⟩ .event
      ⟨"h", "1x1", "en", "t", "/", "", none, none, none, none, none, none, none⟩
      .failed).1.map (fun r => isTypePayloadBody r.body) = some true) ∧
    ((middlewareStep ⟨"https://h.example", "W", some ["/api/*"], some [], none⟩
      ⟨"/api/users", "", "GET", []⟩ (0 : Nat)).1.map
        (fun r => isTypePayloadBody r.body) = some true) ∧
    (trackServerFormEvent ⟨"https://h.example", "W"⟩
      ⟨"submit", "f1", none, "/c", none, none, none, none, none, none, none⟩
      (.response 200 .null)).1.body
      = Json.obj (("website", Json.str "W") :: formEventFields
          ⟨"submit", "f1", none, "/c", none, none, none, none, none, none, none⟩) := by
  have h := post_body_shapes ⟨"https://h.example", some "W", none, none⟩
    ServerTrackOptions.default none none none
    ⟨some "W", none, none, none, none, false, false, none, false, none, true⟩
    ⟨true, "ex.com", 100, 200, "en", "t", "/a", false, false⟩
    ⟨true, none, none, none, "", ""⟩ .event
    ⟨"h", "1x1", "en", "t", "/", "", none, none, none, none, none, none, none⟩
    .failed
    ⟨"https://h.example", "W", some ["/api/*"], some [], none⟩
    ⟨"/api/users", "", "GET", []⟩
    ⟨"https://h.example", "W"⟩
    ⟨"submit", "f1", none, "/c", none, none, none, none, none, none, none⟩
    [] ⟨"https://h.example", "W"⟩
    ⟨"LCP", 1, "good", none, none, none, none, none, none⟩ [] none
    (.response 200 .null) (0 : Nat)
  refine ⟨h.1, ?_, ?_, h.2.2.2.2.1⟩
  · cases hm : (sendStep ⟨some "W", none, none, none, none, false, false, none, false, none, true⟩
      ⟨true, "ex.com", 100, 200, "en", "t", "/a", false, false⟩
      ⟨true, none, none, none, "", ""⟩ .event
      ⟨"h", "1x1", "en", "t", "/", "", none, none, none, none, none, none, none⟩
      .failed).1 with
    | none =>
      simp [sendStep, checkTrackingDisabled, applyBeforeSend, optTruthy] at hm
    | some r => simp [hm, h.2.2.1 r hm]
  · cases hm : (middlewareStep ⟨"https://h.example", "W", some ["/api/*"], some [], none⟩
      ⟨"/api/users", "", "GET", []⟩ (0 : Nat)).1 with
    | none =>
      have hs : shouldTrack ⟨"https://h.example", "W", some ["/api/*"], some [], none⟩
          "/api/users" = true := by
        simp [shouldTrack, mwTrackRoutes, mwExcludeRoutes, globTest, globMatch]
      simp [middlewareStep, hs] at hm
    | some r => simp [hm, h.2.2.2.1 r hm]

end Entro
